import Mathlib

/-!
Verification of the schema-driven validation and documentation-generation
pipeline of the huitzo repository.

The embedding covers:
* `scripts/generate-plugin-docs.js` — markdown documentation generator
  (`generatePropertyDocumentation`, `generateNestedObjectDocumentation`,
  `generateMarkdown`);
* `scripts/validate-plugins.js` — batch record validator (`formatError`,
  `validatePluginFile`, `validateAgainstSchema`, `main`);
* `scripts/validate-roadmap.js` — single-document validator (`main`);
* the per-node constraint checking performed by the AJV dependency
  (modelled from the spec, since the `ajv` package is not part of src/).

JavaScript strings are Lean `String`s; JSON values are the `Json` inductive;
JavaScript `undefined`-able fields are `Option`s; JS truthiness of strings
and numbers is modelled explicitly (`""`, `0` and `undefined` are falsy).
Process exit codes and console output are modelled as a returned event
trace plus an exit code.
-/

/-- A JSON value as produced by `JSON.parse`. Numbers are modelled as
integers (all numeric values appearing in the schemas and constraints of
this repository are integers). -/
inductive Json where
  | null : Json
  | bool : Bool → Json
  | num : Int → Json
  | str : String → Json
  | arr : List Json → Json
  | obj : List (String × Json) → Json

mutual

/-- Structural (deep) equality of JSON values, as used by AJV for `enum` comparisons. -/
def Json.jeq : Json → Json → Bool
  | .null, .null => true
  | .bool a, .bool b => a == b
  | .num a, .num b => a == b
  | .str a, .str b => a == b
  | .arr a, .arr b => Json.jeqList a b
  | .obj a, .obj b => Json.jeqFields a b
  | _, _ => false

def Json.jeqList : List Json → List Json → Bool
  | [], [] => true
  | a :: as, b :: bs => Json.jeq a b && Json.jeqList as bs
  | _, _ => false

def Json.jeqFields : List (String × Json) → List (String × Json) → Bool
  | [], [] => true
  | (ka, va) :: as, (kb, vb) :: bs => ka == kb && Json.jeq va vb && Json.jeqFields as bs
  | _, _ => false

end

/-- JavaScript `String(n)` for an integer-valued number. -/
def intStr (n : Int) : String := toString n

mutual

/-- JavaScript `String(v)` coercion of a JSON value (template-literal
interpolation).  `String(null) = "null"`, arrays join their elements with
`","` (with `null` elements becoming the empty string), plain objects
become `"[object Object]"`. -/
def jsStringOf : Json → String
  | .null => "null"
  | .bool true => "true"
  | .bool false => "false"
  | .num n => intStr n
  | .str s => s
  | .arr l => String.intercalate "," (jsElemStrs l)
  | .obj _ => "[object Object]"

def jsElemStrs : List Json → List String
  | [] => []
  | .null :: js => "" :: jsElemStrs js
  | j :: js => jsStringOf j :: jsElemStrs js

end

/-- One character of a `JSON.stringify` string body. -/
def jsonEscapeChar (c : Char) : String :=
  if c = '"' then "\\\""
  else if c = '\\' then "\\\\"
  else if c = '\n' then "\\n"
  else if c = '\r' then "\\r"
  else if c = '\t' then "\\t"
  else if c = (Char.ofNat 8) then "\\b"
  else if c = (Char.ofNat 12) then "\\f"
  else String.singleton c

def jsonEscape (s : String) : String :=
  String.join (s.data.map jsonEscapeChar)

mutual

/-- JavaScript `JSON.stringify(v)` (compact form, as used by the doc generator for
`default` values and non-string examples). -/
def jstringify : Json → String
  | .null => "null"
  | .bool true => "true"
  | .bool false => "false"
  | .num n => intStr n
  | .str s => "\"" ++ jsonEscape s ++ "\""
  | .arr l => "[" ++ String.intercalate "," (jstringifyList l) ++ "]"
  | .obj fs => "\x7b" ++ String.intercalate "," (jstringifyFields fs) ++ "\x7d"

def jstringifyList : List Json → List String
  | [] => []
  | j :: js => jstringify j :: jstringifyList js

def jstringifyFields : List (String × Json) → List String
  | [] => []
  | (k, v) :: fs => ("\"" ++ jsonEscape k ++ "\":" ++ jstringify v) :: jstringifyFields fs

end

/-- JS truthiness of a possibly-`undefined` string (`undefined` and `""`
are falsy). -/
def truthyS : Option String → Bool
  | none => false
  | some s => s != ""

/-- JS truthiness of a possibly-`undefined` number (`undefined` and `0`
are falsy). -/
def truthyI : Option Int → Bool
  | none => false
  | some n => n != 0

/-- Predicate `noNL l` : the character list contains no newline. -/
def noNL (l : List Char) : Bool := l.all (fun c => c != '\n')

/-- Splitting a character list into lines: `splitLines l` is the list of
'\n'-separated segments of `l` (always nonempty; a trailing newline yields
a final empty segment). -/
def splitLines : List Char → List (List Char)
  | [] => [[]]
  | c :: cs =>
    if c = '\n' then [] :: splitLines cs
    else
      match splitLines cs with
      | l :: ls => (c :: l) :: ls
      | [] => [[c]]

theorem splitLines_ne_nil (l : List Char) : splitLines l ≠ [] := by
  cases l with
  | nil => simp [splitLines]
  | cons c cs =>
    simp only [splitLines]
    split
    · simp
    · split <;> simp_all

theorem splitLines_cons_nl (cs : List Char) :
    splitLines ('\n' :: cs) = [] :: splitLines cs := by
  simp [splitLines]

theorem splitLines_cons_ne (c : Char) (cs : List Char) (hc : ¬ c = '\n') :
    splitLines (c :: cs) =
      (c :: (splitLines cs).headI) :: (splitLines cs).tail := by
  simp only [splitLines, if_neg hc]
  cases h : splitLines cs with
  | nil => exact absurd h (splitLines_ne_nil cs)
  | cons l ls => simp

theorem splitLines_append_newline (a b : List Char) :
    splitLines (a ++ '\n' :: b) = splitLines a ++ splitLines b := by
  induction a with
  | nil =>
    rw [List.nil_append, splitLines_cons_nl]
    rfl
  | cons c cs ih =>
    by_cases hc : c = '\n'
    · subst hc
      rw [List.cons_append, splitLines_cons_nl, splitLines_cons_nl, ih, List.cons_append]
    · rw [List.cons_append, splitLines_cons_ne c _ hc, splitLines_cons_ne c cs hc, ih]
      cases h : splitLines cs with
      | nil => exact absurd h (splitLines_ne_nil cs)
      | cons l ls => simp

/-- A string with no newline splits into a single line. -/
theorem splitLines_of_noNL (l : List Char) (h : noNL l = true) :
    splitLines l = [l] := by
  induction l with
  | nil => simp [splitLines]
  | cons c cs ih =>
    simp only [noNL, List.all_cons, Bool.and_eq_true, bne_iff_ne] at h
    rw [splitLines_cons_ne c cs h.1, ih]
    · simp
    · exact h.2

/-- Number of lines of `l` equal to `x`. -/
def cntLine (x : List Char) (l : List Char) : Nat :=
  (splitLines l).count x

theorem cntLine_append_newline (x a b : List Char) :
    cntLine x (a ++ '\n' :: b) = cntLine x a + cntLine x b := by
  unfold cntLine
  rw [splitLines_append_newline, List.count_append]

theorem cntLine_of_noNL (x l : List Char) (h : noNL l = true) :
    cntLine x l = if l = x then 1 else 0 := by
  unfold cntLine
  rw [splitLines_of_noNL l h]
  by_cases hx : l = x
  · simp [hx]
  · simp [List.count_cons, hx]

theorem cntLine_nil (x : List Char) (hx : x ≠ []) : cntLine x [] = 0 := by
  have h : noNL [] = true := by simp [noNL]
  rw [cntLine_of_noNL x [] h, if_neg (fun h' => hx h'.symm)]

/-- Boolean test `isPreB p l` : `p` is a prefix of `l`. -/
def isPreB : List Char → List Char → Bool
  | [], _ => true
  | _ :: _, [] => false
  | p :: ps, c :: cs => p == c && isPreB ps cs

theorem isPreB_append (p r : List Char) : isPreB p (p ++ r) = true := by
  induction p with
  | nil => rfl
  | cons c cs ih => simp [isPreB, ih]

/-- If no line of `l` begins with `h6`, then no line equals `h6 ++ q`. -/
theorem cntLine_zero_of_no_pre (h6 q l : List Char)
    (h : (splitLines l).all (fun ln => !(isPreB h6 ln)) = true) :
    cntLine (h6 ++ q) l = 0 := by
  unfold cntLine
  rw [List.count_eq_zero]
  intro hmem
  have := List.all_eq_true.mp h _ hmem
  rw [isPreB_append] at this
  exact absurd this (by simp)

/-- Proposition `HasSub l sub` : `sub` occurs as a contiguous segment of `l`. -/
def HasSub (l sub : List Char) : Prop := ∃ x y, l = x ++ sub ++ y

/-- Executable check for `HasSub`. -/
def hasSubB (l sub : List Char) : Bool :=
  l.tails.any (fun t => isPreB sub t)

theorem mem_tails_of_append (x r : List Char) : r ∈ (x ++ r).tails := by
  induction x with
  | nil => cases r <;> simp [List.tails]
  | cons c cs ih =>
    rw [List.cons_append, List.tails_cons]
    exact List.mem_cons_of_mem _ ih

theorem hasSubB_of_hasSub (l sub : List Char) (h : HasSub l sub) :
    hasSubB l sub = true := by
  obtain ⟨x, y, rfl⟩ := h
  unfold hasSubB
  rw [List.any_eq_true]
  refine ⟨sub ++ y, ?_, ?_⟩
  · rw [List.append_assoc]
    exact mem_tails_of_append x (sub ++ y)
  · exact isPreB_append sub y

theorem not_hasSub_of_hasSubB_false (l sub : List Char) (h : hasSubB l sub = false) :
    ¬ HasSub l sub := fun hs => by
  rw [hasSubB_of_hasSub l sub hs] at h
  cases h

theorem hasSub_of_eq (l x sub y : List Char) (h : l = x ++ sub ++ y) : HasSub l sub :=
  ⟨x, y, h⟩

/-- The `type` field of a schema node: absent, a single string, or an
array of strings (a union type). -/
inductive TypeF where
  | missing : TypeF
  | one : String → TypeF
  | many : List String → TypeF
deriving DecidableEq

/-- JS strict equality `prop.type === s` (an array is never `===` a string). -/
def typeIs (t : TypeF) (s : String) : Bool :=
  match t with
  | .one x => x == s
  | _ => false

/-- The leaf-level fields of a schema node read by
`generatePropertyDocumentation` (plus `required`, read when the node is an
object or items node). -/
structure PropF where
  type : TypeF
  description : Option String
  enum : Option (List Json)
  pattern : Option String
  minLength : Option Int
  maxLength : Option Int
  minimum : Option Int
  maximum : Option Int
  examples : Option (List Json)
  default : Option Json
  required : Option (List String)

/-- A schema node: leaf fields plus the recursive `properties` mapping and
`items` child. -/
inductive SchemaProp where
  | node : PropF → Option (List (String × SchemaProp)) → Option SchemaProp → SchemaProp

def SchemaProp.f : SchemaProp → PropF
  | .node f _ _ => f

def SchemaProp.properties : SchemaProp → Option (List (String × SchemaProp))
  | .node _ ps _ => ps

def SchemaProp.items : SchemaProp → Option SchemaProp
  | .node _ _ it => it

/-- Source `getTypeDescription(prop)` (generate-plugin-docs.js lines 17-23).
An absent `type` is interpolated by JS as the string `undefined`. -/
def getTypeDescription (prop : PropF) : String :=
  match prop.type with
  | .missing => "undefined"
  | .one s => s
  | .many l => String.intercalate " | " l

/-- Source `formatExamples(examples)` (lines 25-35). -/
def formatExamples (examples : List Json) : String :=
  String.intercalate ", " (examples.map fun ex =>
    match ex with
    | .str s => "`" ++ s ++ "`"
    | _ => "`" ++ jstringify ex ++ "`")

/-- Concatenation of a list of strings, modelling the JS `doc += part`
accumulation loops. -/
def strConcat : List String → String
  | [] => ""
  | s :: ss => s ++ strConcat ss

/-- Description block of `generatePropertyDocumentation` (lines 43-45). -/
def descChunk (d : Option String) : String :=
  if truthyS d then d.getD "" ++ "\n\n" else ""

/-- Allowed-values block (lines 47-53); any present array (even empty) is truthy. -/
def enumChunk (e : Option (List Json)) : String :=
  match e with
  | some vs =>
    "**Allowed values:**\n"
      ++ strConcat (vs.map fun v => "- `" ++ jsStringOf v ++ "`\n") ++ "\n"
  | none => ""

/-- Pattern block (lines 55-57). -/
def patternChunk (p : Option String) : String :=
  if truthyS p then "**Pattern:** `" ++ p.getD "" ++ "`\n\n" else ""

/-- String-length block (lines 59-64).  Both the guard and the per-bound
pushes use JS truthiness, under which a bound equal to 0 is skipped. -/
def lengthChunk (minL maxL : Option Int) : String :=
  if truthyI minL || truthyI maxL then
    "**String length:** "
      ++ String.intercalate ", "
        ((if truthyI minL then ["min: " ++ intStr (minL.getD 0)] else [])
          ++ (if truthyI maxL then ["max: " ++ intStr (maxL.getD 0)] else []))
      ++ "\n\n"
  else ""

/-- Numeric-range block (lines 66-71).  The guard uses JS truthiness, but
once it passes every present (`!== undefined`) bound is pushed. -/
def rangeChunk (minV maxV : Option Int) : String :=
  if truthyI minV || truthyI maxV then
    "**Range:** "
      ++ String.intercalate ", "
        ((match minV with | some n => ["min: " ++ intStr n] | none => [])
          ++ (match maxV with | some n => ["max: " ++ intStr n] | none => []))
      ++ "\n\n"
  else ""

/-- Examples block (lines 73-77). -/
def examplesChunk (e : Option (List Json)) : String :=
  match e with
  | some es =>
    if es.length > 0 then "**Examples:**\n" ++ formatExamples es ++ "\n\n" else ""
  | none => ""

/-- Default-value block (lines 79-81); guarded by `!== undefined`. -/
def defaultChunk (d : Option Json) : String :=
  match d with
  | some v => "**Default:** `" ++ jstringify v ++ "`\n\n"
  | none => ""

/-- Body of `generatePropertyDocumentation` after its heading line (lines
40-81). -/
def propDocRest (prop : PropF) (isRequired : Bool) : String :=
  "**Type:** `" ++ getTypeDescription prop ++ "`\n"
    ++ "**Required:** " ++ (if isRequired then "✅ Yes" else "❌ No") ++ "\n\n"
    ++ descChunk prop.description
    ++ enumChunk prop.enum
    ++ patternChunk prop.pattern
    ++ lengthChunk prop.minLength prop.maxLength
    ++ rangeChunk prop.minimum prop.maximum
    ++ examplesChunk prop.examples
    ++ defaultChunk prop.default

/-- Source `generatePropertyDocumentation(propName, prop, isRequired)`
(lines 37-84). -/
def generatePropertyDocumentation (propName : String) (prop : PropF)
    (isRequired : Bool) : String :=
  "#### `" ++ propName ++ "`\n\n" ++ propDocRest prop isRequired

/-- Source `generateNestedObjectDocumentation(propName, prop, parentPath)`
(lines 86-117); `generateMarkdown` only ever invokes it with the default
empty `parentPath`. -/
def generateNestedObjectDocumentation (propName : String) (prop : SchemaProp)
    (parentPath : String) : String :=
  let fullPath := if parentPath != "" then parentPath ++ "." ++ propName else propName
  if typeIs prop.f.type "object" then
    "### `" ++ fullPath ++ "`\n\n"
      ++ descChunk prop.f.description
      ++ (let required := prop.f.required.getD []
          match prop.properties with
          | some chs =>
            strConcat (chs.map fun ch =>
              generatePropertyDocumentation ch.1 ch.2.f (required.contains ch.1))
          | none => "")
      ++ (match prop.items with
          | some it =>
            match it.properties with
            | some ips =>
              "#### Item Properties\n\n"
                ++ strConcat (ips.map fun ip =>
                  generatePropertyDocumentation ip.1 ip.2.f
                    ((it.f.required.getD []).contains ip.1))
            | none => ""
          | none => "")
  else ""

/-- The array-of-objects section emitted inline by the top-level loop of
`generateMarkdown` (lines 162-179), guarded by
`prop.type === "array" && prop.items && prop.items.properties`. -/
def arrayItemsSection (propName : String) (prop : SchemaProp) : String :=
  match prop.items with
  | some it =>
    match it.properties with
    | some ips =>
      if typeIs prop.f.type "array" then
        "### `" ++ propName ++ "[]` - Array Items\n\n"
          ++ descChunk it.f.description
          ++ strConcat (ips.map fun ip =>
            generatePropertyDocumentation ip.1 ip.2.f
              ((it.f.required.getD []).contains ip.1))
      else ""
    | none => ""
  | none => ""

/-- One iteration of the top-level property loop of `generateMarkdown`
(lines 152-180). -/
def topPropertyBlock (required : List String) (propName : String)
    (prop : SchemaProp) : String :=
  generatePropertyDocumentation propName prop.f (required.contains propName)
    ++ (if typeIs prop.f.type "object" && prop.properties.isSome then
          generateNestedObjectDocumentation propName prop ""
        else "")
    ++ arrayItemsSection propName prop

/-- The root schema document as read by `generateMarkdown`. -/
structure Schema where
  description : Option String
  required : Option (List String)
  properties : List (String × SchemaProp)

/-- JS interpolation of the overview description line:
`String(undefined) = "undefined"`. -/
def overviewStr : Option String → String
  | some d => d
  | none => "undefined"

/-- Head of the markdown template (lines 120-131), up to the interpolated
schema description. -/
def headConst1 : String :=
  "# Plugin Schema Documentation\n\n"
    ++ "> **Auto-generated documentation from [`schema.json`](./schema.json)**\n"
    ++ "> \n"
    ++ "> This documentation is automatically generated and should not be manually edited.\n"
    ++ "> Changes to plugin schema should be made in `schema.json` and documentation should be regenerated using:\n"
    ++ "> ```bash\n"
    ++ "> npm run generate:plugin-docs\n"
    ++ "> ```\n\n"
    ++ "## Overview\n\n"

/-- Template between the schema description and the required-fields bullet
list (lines 133-138), minus its first newline. -/
def headConst2t : String :=
  "\n## Required Fields\n\nThe following fields are mandatory for every plugin definition:\n\n"

/-- Template between the schema description and the required-fields bullet
list (lines 133-138). -/
def headConst2 : String := "\n" ++ headConst2t

/-- The required-fields bullet list (lines 140-143). -/
def requiredSection (required : List String) : String :=
  strConcat (required.map fun field => "- `" ++ field ++ "`\n")

/-- Template between the required list and the field reference (lines
145-149), minus its first newline. -/
def midConstT : String := "\n## Field Reference\n\n"

/-- Template between the required list and the field reference (lines 145-149). -/
def midConst : String := "\n" ++ midConstT

/-- The field-reference section: the full top-level property loop (lines 151-180). -/
def fieldRefSection (required : List String)
    (props : List (String × SchemaProp)) : String :=
  strConcat (props.map fun np => topPropertyBlock required np.1 np.2)

/-- Tail of the markdown template (lines 182-297), minus its first newline
and excluding the final blank line before the timestamp line. -/
def tailBody0t : String :=
  "\n## Examples\n\n### Minimal Plugin (with only required fields)\n\n"
    ++ "```json\n"
    ++ "\x7b\n"
    ++ "  \"id\": \"my-plugin\",\n"
    ++ "  \"slug\": \"my-plugin\",\n"
    ++ "  \"name\": \"My Plugin\",\n"
    ++ "  \"version\": \"1.0.0\",\n"
    ++ "  \"author\": \"Your Name\",\n"
    ++ "  \"icon\": \"🔌\",\n"
    ++ "  \"tagline\": \"Brief description of what it does\",\n"
    ++ "  \"description\": \"Longer description explaining the plugin functionality\",\n"
    ++ "  \"category\": \"productivity\",\n"
    ++ "  \"status\": \"active\"\n"
    ++ "\x7d\n"
    ++ "```\n\n### Complete Plugin Example\n\n"
    ++ "```json\n"
    ++ "\x7b\n"
    ++ "  \"id\": \"financial-analysis\",\n"
    ++ "  \"slug\": \"financial\",\n"
    ++ "  \"name\": \"Financial Analysis\",\n"
    ++ "  \"version\": \"1.0.0\",\n"
    ++ "  \"author\": \"Huitzo Team\",\n"
    ++ "  \"icon\": \"💰\",\n"
    ++ "  \"tagline\": \"Personalized market insights delivered to your inbox\",\n"
    ++ "  \"description\": \"Get personalized financial market analysis...\",\n"
    ++ "  \"category\": \"finance\",\n"
    ++ "  \"status\": \"active\",\n"
    ++ "  \"features\": [\n"
    ++ "    \"Real-time market data\",\n"
    ++ "    \"Portfolio analysis\",\n"
    ++ "    \"Automated insights\"\n"
    ++ "  ],\n"
    ++ "  \"pricing\": \x7b\n"
    ++ "    \"free\": \x7b\n"
    ++ "      \"available\": true,\n"
    ++ "      \"limits\": \"5 reports per month\"\n"
    ++ "    \x7d,\n"
    ++ "    \"pro\": \x7b\n"
    ++ "      \"price\": \"$10/month\",\n"
    ++ "      \"features\": [\"Unlimited reports\", \"Priority support\"]\n"
    ++ "    \x7d\n"
    ++ "  \x7d,\n"
    ++ "  \"installation\": \x7b\n"
    ++ "    \"command\": \"huitzo plugin install financial\",\n"
    ++ "    \"requirements\": [\"Huitzo Core v1.0+\"]\n"
    ++ "  \x7d,\n"
    ++ "  \"quickstart\": [\n"
    ++ "    \x7b\n"
    ++ "      \"step\": 1,\n"
    ++ "      \"title\": \"Initialize the plugin\",\n"
    ++ "      \"command\": \"finance setup\"\n"
    ++ "    \x7d\n"
    ++ "  ],\n"
    ++ "  \"links\": \x7b\n"
    ++ "    \"documentation\": \"https://docs.example.com\",\n"
    ++ "    \"repository\": \"https://github.com/example/plugin\"\n"
    ++ "  \x7d\n"
    ++ "\x7d\n"
    ++ "```\n\n## Validation\n\n"
    ++ "All plugin files are automatically validated against this schema. Validation is performed:\n\n"
    ++ "- On every PR via GitHub Actions workflow\n"
    ++ "- Pre-commit using the validation script\n"
    ++ "- During local development\n\n"
    ++ "### Running Validation Locally\n\n"
    ++ "```bash\nnpm run validate:plugins\n```\n\n"
    ++ "### Validation Errors\n\n"
    ++ "If you encounter validation errors, ensure:\n\n"
    ++ "1. All required fields are present\n"
    ++ "2. Values match the specified types and constraints\n"
    ++ "3. Enums only contain allowed values\n"
    ++ "4. String lengths are within limits\n"
    ++ "5. IDs and slugs follow the kebab-case pattern\n"
    ++ "6. Semantic versions follow MAJOR.MINOR.PATCH format\n\n"
    ++ "## Categories\n\n"
    ++ "Plugins must belong to one of these categories:\n\n"
    ++ "- `finance` - Financial and banking integrations\n"
    ++ "- `analytics` - Data analytics and reporting\n"
    ++ "- `automation` - Workflow automation\n"
    ++ "- `integration` - Third-party integrations\n"
    ++ "- `data` - Data management and processing\n"
    ++ "- `communication` - Communication tools\n"
    ++ "- `productivity` - Productivity and utilities\n"
    ++ "- `other` - Other categories\n\n"
    ++ "## Status Values\n\n"
    ++ "- `active` - Fully functional and supported\n"
    ++ "- `coming-soon` - In development, not yet available\n"
    ++ "- `beta` - Available but still undergoing testing\n"
    ++ "- `deprecated` - No longer maintained, users should migrate\n"
    ++ "- `archived` - Permanently retired\n\n"
    ++ "---\n"

/-- Tail of the markdown template (lines 182-297) up to and excluding the
final blank line before the timestamp line. -/
def tailBody0 : String := "\n" ++ tailBody0t

/-- Tail template up to the timestamp line. -/
def tailBody : String := tailBody0 ++ "\n"

/-- Tail of the markdown template (lines 182-298), ending right before the
interpolated timestamp. -/
def tailConst : String := tailBody ++ "**Last updated:** "

/-- Source `generateMarkdown(schema)` (lines 119-302).  The single impure
input, `new Date().toISOString()`, is passed explicitly as `ts`. -/
def generateMarkdown (schema : Schema) (ts : String) : String :=
  headConst1
    ++ overviewStr schema.description
    ++ headConst2
    ++ requiredSection (schema.required.getD [])
    ++ midConst
    ++ fieldRefSection (schema.required.getD []) schema.properties
    ++ tailConst
    ++ ts ++ "\n"

/-- The `params` payload of an AJV error object (only the members read by
`formatError`). -/
structure AjvParams where
  allowedValues : Option (List Json)
  pattern : Option String
  limit : Option Int

/-- An AJV error object (the members destructured by `formatError`). -/
structure AjvError where
  instancePath : String
  schemaPath : String
  keyword : String
  message : String
  params : AjvParams

/-- Source `formatError(error)` of validate-plugins.js (lines 28-64). -/
def formatError (error : AjvError) : String :=
  "  ❌ " ++ error.keyword
    ++ (if error.instancePath != "" then " at " ++ error.instancePath else "")
    ++ ": " ++ error.message
    ++ (match error.params.allowedValues with
        | some vs => " (allowed: " ++ String.intercalate ", " (jsElemStrs vs) ++ ")"
        | none => "")
    ++ (if truthyS error.params.pattern then
          " (pattern: " ++ error.params.pattern.getD "" ++ ")"
        else "")
    ++ (match error.params.limit with
        | some l =>
          if error.keyword == "minLength" || error.keyword == "minimum"
              || error.keyword == "minItems" then
            " (minimum: " ++ intStr l ++ ")"
          else if error.keyword == "maxLength" || error.keyword == "maximum"
              || error.keyword == "maxItems" then
            " (maximum: " ++ intStr l ++ ")"
          else ""
        | none => "")

/-- Source `formatError(error)` of validate-roadmap.js (lines 33-70): same
as the plugins version except that `minProperties` also selects the
minimum-limit suffix. -/
def formatErrorRoadmap (error : AjvError) : String :=
  "  ❌ " ++ error.keyword
    ++ (if error.instancePath != "" then " at " ++ error.instancePath else "")
    ++ ": " ++ error.message
    ++ (match error.params.allowedValues with
        | some vs => " (allowed: " ++ String.intercalate ", " (jsElemStrs vs) ++ ")"
        | none => "")
    ++ (if truthyS error.params.pattern then
          " (pattern: " ++ error.params.pattern.getD "" ++ ")"
        else "")
    ++ (match error.params.limit with
        | some l =>
          if error.keyword == "minLength" || error.keyword == "minimum"
              || error.keyword == "minItems" || error.keyword == "minProperties" then
            " (minimum: " ++ intStr l ++ ")"
          else if error.keyword == "maxLength" || error.keyword == "maximum"
              || error.keyword == "maxItems" then
            " (maximum: " ++ intStr l ++ ")"
          else ""
        | none => "")

/-- Per-record result as accumulated in `main`'s `results` array
(validate-plugins.js lines 134-171); `ok` models `status === "success"`. -/
structure FileResult where
  file : String
  ok : Bool
  errors : List String

/-- A console/exit event emitted by a validator run. -/
inductive Ev where
  | schemaLoaded : Ev
  | configError : String → Ev
  | noFilesWarn : Ev
  | validating : Nat → Ev
  | fileLine : String → Bool → List String → Ev
  | summary : Nat → Nat → Nat → Ev
  | finalFail : Ev
  | finalOk : Ev
  | roadmapLoadedMsg : Ev
  | roadmapErrors : List String → Ev
  | roadmapOk : Ev

/-- The environment of one validate-plugins.js invocation: the outcomes of
its filesystem reads, JSON parses and schema compilation.  `.error m`
models a thrown exception whose `.message` is `m`; `readDir` yields the
base names in the plugins directory; `parseFile` is
`readFileSync` + `JSON.parse` of one record file. -/
structure PEnv where
  schemaLoad : Except String Json
  compile : Json → Except String (Json → List AjvError)
  readDir : Except String (List String)
  parseFile : String → Except String Json

/-- Source `validateAgainstSchema(plugin, schema, validate)` (lines 80-88).
With AJV, `validate(plugin)` returns false exactly when `validate.errors`
is nonempty, so the function amounts to formatting the compiled validator's
error list (empty for a valid record). -/
def validateAgainstSchema (validate : Json → List AjvError) (plugin : Json) :
    List String :=
  (validate plugin).map formatError

/-- Source `validatePluginFile` plus the per-file body of `main`'s
`forEach` (lines 66-78 and 134-171). -/
def processFile (validate : Json → List AjvError) (env : PEnv)
    (fileName : String) : FileResult :=
  match env.parseFile fileName with
  | .error m => ⟨fileName, false, ["JSON Parse Error: " ++ m]⟩
  | .ok plugin =>
    let schemaErrors := validateAgainstSchema validate plugin
    if schemaErrors.length > 0 then ⟨fileName, false, schemaErrors⟩
    else ⟨fileName, true, []⟩

/-- The file filter of `main` (line 116): keep files ending in `.json`
other than `schema.json` itself.  `endsWith` is modelled on the character
list (Lean's `String.endsWith` does not reduce in the kernel). -/
def pluginFileFilter (f : String) : Bool :=
  (".json" : String).data.isSuffixOf f.data && f != "schema.json"

/-- The reporting and exit logic of `main` once the per-file results are
collected (validate-plugins.js lines 128-202).  The file count printed by
the `Validating N file(s)` line equals the number of results, since one
result is accumulated per plugin file. -/
def batchOutcome (results : List FileResult) : List Ev × Nat :=
  let successCount := (results.filter (fun r => r.ok)).length
  let errorCount := (results.filter (fun r => !r.ok)).length
  let totalErrors := (results.map (fun r => r.errors.length)).sum
  ([.schemaLoaded, .validating results.length]
    ++ results.map (fun r => .fileLine r.file r.ok r.errors)
    ++ [.summary successCount errorCount totalErrors]
    ++ [if totalErrors > 0 then .finalFail else .finalOk],
   if totalErrors > 0 then 1 else 0)

/-- Source `main()` of validate-plugins.js (lines 90-203) as a pure
function from the environment to the console-event trace and the process
exit code (a plain `return` from `main` ends the process with code 0). -/
def runValidatePlugins (env : PEnv) : List Ev × Nat :=
  match env.schemaLoad with
  | .error m => ([.configError ("❌ Failed to load schema: " ++ m)], 1)
  | .ok schema =>
    match env.compile schema with
    | .error m =>
      ([.schemaLoaded, .configError ("❌ Failed to compile schema: " ++ m)], 1)
    | .ok validate =>
      match env.readDir with
      | .error m =>
        ([.schemaLoaded,
          .configError ("❌ Failed to read plugins directory: " ++ m)], 1)
      | .ok names =>
        let pluginFiles := names.filter pluginFileFilter
        if pluginFiles.isEmpty then ([.schemaLoaded, .noFilesWarn], 0)
        else batchOutcome (pluginFiles.map (processFile validate env))

/-- The environment of one validate-roadmap.js invocation. -/
structure REnv where
  schemaLoad : Except String Json
  compile : Json → Except String (Json → List AjvError)
  roadmapLoad : Except String Json

/-- Source `main()` of validate-roadmap.js (lines 72-118) as a pure
function from the environment to the console-event trace and exit code. -/
def runValidateRoadmap (env : REnv) : List Ev × Nat :=
  match env.schemaLoad with
  | .error m => ([.configError ("❌ Failed to load schema: " ++ m)], 1)
  | .ok schema =>
    match env.compile schema with
    | .error m =>
      ([.schemaLoaded, .configError ("❌ Failed to compile schema: " ++ m)], 1)
    | .ok validate =>
      match env.roadmapLoad with
      | .error m =>
        ([.schemaLoaded,
          .configError ("❌ Failed to load roadmap file: " ++ m)], 1)
      | .ok roadmap =>
        let errs := validate roadmap
        if errs.isEmpty then ([.schemaLoaded, .roadmapLoadedMsg, .roadmapOk], 0)
        else
          ([.schemaLoaded, .roadmapLoadedMsg,
            .roadmapErrors (errs.map formatErrorRoadmap)], 1)

/-- Modelled from the spec: the per-node constraint checking performed by
the AJV validation engine (the `ajv` npm dependency is not part of src/).
Per spec sections 4.1-4.2, every present constraint among
enum/pattern/length/range is checked in the canonical order (enum, pattern,
length, range); with `allErrors: true` (validate-plugins.js lines 19-23)
every failed constraint yields its own error, never short-circuiting after
the first; constraints that do not apply to the value's primitive kind are
ignored.  Regular-expression matching is abstracted as the `rmatch`
parameter. -/
def constraintErrors (rmatch : String → String → Bool) (node : PropF)
    (path : String) (v : Json) : List AjvError :=
  (match node.enum with
   | some vs =>
     if vs.any (fun w => Json.jeq v w) then []
     else [⟨path, "#/enum", "enum",
            "must be equal to one of the allowed values", ⟨some vs, none, none⟩⟩]
   | none => [])
  ++ (match v, node.pattern with
      | .str s, some p =>
        if rmatch p s then []
        else [⟨path, "#/pattern", "pattern",
               "must match pattern \"" ++ p ++ "\"", ⟨none, some p, none⟩⟩]
      | _, _ => [])
  ++ (match v, node.minLength with
      | .str s, some n =>
        if (s.length : Int) < n then
          [⟨path, "#/minLength", "minLength",
            "must NOT have fewer than " ++ intStr n ++ " characters",
            ⟨none, none, some n⟩⟩]
        else []
      | _, _ => [])
  ++ (match v, node.maxLength with
      | .str s, some n =>
        if (s.length : Int) > n then
          [⟨path, "#/maxLength", "maxLength",
            "must NOT have more than " ++ intStr n ++ " characters",
            ⟨none, none, some n⟩⟩]
        else []
      | _, _ => [])
  ++ (match v, node.minimum with
      | .num m, some n =>
        if m < n then
          [⟨path, "#/minimum", "minimum", "must be >= " ++ intStr n,
            ⟨none, none, some n⟩⟩]
        else []
      | _, _ => [])
  ++ (match v, node.maximum with
      | .num m, some n =>
        if m > n then
          [⟨path, "#/maximum", "maximum", "must be <= " ++ intStr n,
            ⟨none, none, some n⟩⟩]
        else []
      | _, _ => [])

theorem hasSub_append_left {a b sub : List Char} (h : HasSub b sub) :
    HasSub (a ++ b) sub := by
  obtain ⟨x, y, rfl⟩ := h
  exact ⟨a ++ x, y, by simp⟩

theorem hasSub_append_right {a b sub : List Char} (h : HasSub a sub) :
    HasSub (a ++ b) sub := by
  obtain ⟨x, y, rfl⟩ := h
  exact ⟨x, y ++ b, by simp⟩

theorem hasSub_str {s x sub y : String} (h : s = x ++ sub ++ y) :
    HasSub s.data sub.data := by
  subst h
  exact ⟨x.data, y.data, rfl⟩

theorem hasSubS_left (s t : String) (sub : List Char) (h : HasSub t.data sub) :
    HasSub (s ++ t).data sub :=
  hasSub_append_left (a := s.data) h

theorem hasSubS_right (s t : String) (sub : List Char) (h : HasSub s.data sub) :
    HasSub (s ++ t).data sub :=
  hasSub_append_right (b := t.data) h

theorem intercalate_single (s x : String) : String.intercalate s [x] = x := rfl

theorem intercalate_pair (s x y : String) :
    String.intercalate s [x, y] = x ++ s ++ y := rfl

/-- C6: for every scalar value that simultaneously violates two declared
constraints (a string shorter than `minLength` that also fails `pattern`),
validation yields two distinct Field Errors for that value, one per failed
constraint; violations are not short-circuited after the first. -/
theorem two_violations_two_errors (rmatch : String → String → Bool)
    (node : PropF) (path : String) (s : String) (n : Int) (p : String)
    (hmin : node.minLength = some n) (hpat : node.pattern = some p)
    (hlen : (s.length : Int) < n) (hre : rmatch p s = false) :
    ∃ e1 e2,
      e1 ∈ constraintErrors rmatch node path (.str s)
      ∧ e2 ∈ constraintErrors rmatch node path (.str s)
      ∧ e1.keyword = "pattern" ∧ e2.keyword = "minLength" ∧ e1 ≠ e2 := by
  refine ⟨⟨path, "#/pattern", "pattern", "must match pattern \"" ++ p ++ "\"",
            ⟨none, some p, none⟩⟩,
          ⟨path, "#/minLength", "minLength",
            "must NOT have fewer than " ++ intStr n ++ " characters",
            ⟨none, none, some n⟩⟩, ?_, ?_, rfl, rfl, ?_⟩
  · simp [constraintErrors, hmin, hpat, hre, hlen]
  · simp [constraintErrors, hmin, hpat, hre, hlen]
  · intro h
    have := congrArg AjvError.keyword h
    simp at this

/-- Concrete witness for `two_violations_two_errors`: the record value
`"a"` against a node declaring `minLength: 3` and a pattern it fails. -/
theorem two_violations_two_errors_witness :
    ∃ e1 e2,
      e1 ∈ constraintErrors (fun _ _ => false)
            ⟨.one "string", none, none, some "^[a-z]\x7b4\x7d$", some 3, none,
              none, none, none, none, none⟩ "/id" (.str "a")
      ∧ e2 ∈ constraintErrors (fun _ _ => false)
            ⟨.one "string", none, none, some "^[a-z]\x7b4\x7d$", some 3, none,
              none, none, none, none, none⟩ "/id" (.str "a")
      ∧ e1.keyword = "pattern" ∧ e2.keyword = "minLength" ∧ e1 ≠ e2 :=
  two_violations_two_errors (fun _ _ => false) _ "/id" "a" 3 "^[a-z]\x7b4\x7d$"
    rfl rfl (by decide) rfl

/-- C7: for every string value violating a declared `pattern`, validation
yields a Field Error with keyword `"pattern"` whose params carry the exact
pattern text, and the message formatted by `formatError`
(validate-plugins.js lines 28-64) contains the pattern verbatim. -/
theorem pattern_error_carries_pattern (rmatch : String → String → Bool)
    (node : PropF) (path : String) (p s : String)
    (hpat : node.pattern = some p) (hre : rmatch p s = false) :
    ∃ e, e ∈ constraintErrors rmatch node path (.str s)
      ∧ e.keyword = "pattern" ∧ e.params.pattern = some p
      ∧ HasSub (formatError e).data p.data := by
  refine ⟨⟨path, "#/pattern", "pattern", "must match pattern \"" ++ p ++ "\"",
            ⟨none, some p, none⟩⟩, ?_, rfl, rfl, ?_⟩
  · simp [constraintErrors, hpat, hre]
  · apply hasSub_str
      (x := "  ❌ " ++ "pattern"
        ++ (if path != "" then " at " ++ path else "") ++ ": "
        ++ "must match pattern \"")
      (y := "\""
        ++ (if truthyS (some p) then " (pattern: " ++ p ++ ")" else ""))
    simp only [formatError, String.append_assoc, String.empty_append,
      String.append_empty, Option.getD_some]

/-- Concrete witness for `pattern_error_carries_pattern`. -/
theorem pattern_error_carries_pattern_witness :
    ∃ e, e ∈ constraintErrors (fun _ _ => false)
          ⟨.one "string", none, none, some "^[a-z0-9]+(-[a-z0-9]+)*$", none,
            none, none, none, none, none, none⟩ "/id" (.str "My_Plugin")
      ∧ e.keyword = "pattern"
      ∧ e.params.pattern = some "^[a-z0-9]+(-[a-z0-9]+)*$"
      ∧ HasSub (formatError e).data ("^[a-z0-9]+(-[a-z0-9]+)*$" : String).data :=
  pattern_error_carries_pattern (fun _ _ => false) _ "/id"
    "^[a-z0-9]+(-[a-z0-9]+)*$" "My_Plugin" rfl rfl

/-- Schema property declaring `minimum: 0` and nothing else, used to refute
C3 as stated. -/
def zeroBoundProp : PropF :=
  ⟨.one "integer", none, none, none, none, none, some 0, none, none, none, none⟩

/-- C3 counterexample: on a property whose declared `minimum` is 0 (and no
other numeric bound), the generated markdown contains no range constraint
line at all — the JS truthiness guard `prop.minimum || prop.maximum`
(generate-plugin-docs.js line 66) silently skips a 0 bound, contradicting
the claim that a range line appears whenever a bound is present, including
with value 0. -/
theorem range_line_missing_for_zero_minimum :
    zeroBoundProp.minimum = some 0
    ∧ ¬ HasSub (generatePropertyDocumentation "score" zeroBoundProp false).data
        ("**Range:**" : String).data :=
  ⟨rfl, not_hasSub_of_hasSubB_false _ _ (by decide)⟩

/-- C3 (amended): a string-length constraint line appears when `minLength`
or `maxLength` is present with a nonzero value, stating each such nonzero
bound; a range constraint line appears when `minimum` or `maximum` is
present with a nonzero (truthy) value, and then states every present bound
(including an accompanying bound whose value is 0); a bound of 0 on its own
produces no constraint line. -/
theorem bound_lines_for_truthy_bounds (propName : String) (prop : PropF)
    (isRequired : Bool) :
    (∀ n, prop.minLength = some n → n ≠ 0 →
      HasSub (generatePropertyDocumentation propName prop isRequired).data
        ("**String length:** " : String).data
      ∧ HasSub (generatePropertyDocumentation propName prop isRequired).data
          ("min: " ++ intStr n : String).data)
    ∧ (∀ n, prop.maxLength = some n → n ≠ 0 →
      HasSub (generatePropertyDocumentation propName prop isRequired).data
        ("**String length:** " : String).data
      ∧ HasSub (generatePropertyDocumentation propName prop isRequired).data
          ("max: " ++ intStr n : String).data)
    ∧ (∀ n, prop.minimum = some n →
        (truthyI prop.minimum || truthyI prop.maximum) = true →
      HasSub (generatePropertyDocumentation propName prop isRequired).data
        ("**Range:** " : String).data
      ∧ HasSub (generatePropertyDocumentation propName prop isRequired).data
          ("min: " ++ intStr n : String).data)
    ∧ (∀ n, prop.maximum = some n →
        (truthyI prop.minimum || truthyI prop.maximum) = true →
      HasSub (generatePropertyDocumentation propName prop isRequired).data
        ("**Range:** " : String).data
      ∧ HasSub (generatePropertyDocumentation propName prop isRequired).data
          ("max: " ++ intStr n : String).data) := by
  have embedLen : ∀ sub, HasSub (lengthChunk prop.minLength prop.maxLength).data sub →
      HasSub (generatePropertyDocumentation propName prop isRequired).data sub := by
    intro sub h
    unfold generatePropertyDocumentation propDocRest
    apply hasSubS_left
    apply hasSubS_right
    apply hasSubS_right
    apply hasSubS_right
    exact hasSubS_left _ _ _ h
  have embedRng : ∀ sub, HasSub (rangeChunk prop.minimum prop.maximum).data sub →
      HasSub (generatePropertyDocumentation propName prop isRequired).data sub := by
    intro sub h
    unfold generatePropertyDocumentation propDocRest
    apply hasSubS_left
    apply hasSubS_right
    apply hasSubS_right
    exact hasSubS_left _ _ _ h
  refine ⟨?_, ?_, ?_, ?_⟩
  · intro n hmin hn
    have htr : truthyI (some n) = true := by simp [truthyI, hn]
    cases hmax : truthyI prop.maxLength with
    | false =>
      refine ⟨embedLen _ (hasSub_str (x := "")
          (y := ("min: " ++ intStr n) ++ "\n\n") ?_),
        embedLen _ (hasSub_str (x := "**String length:** ") (y := "\n\n") ?_)⟩
        <;> simp [lengthChunk, hmin, htr, hmax, intercalate_single,
              String.append_assoc, String.empty_append]
    | true =>
      refine ⟨embedLen _ (hasSub_str (x := "")
          (y := ("min: " ++ intStr n) ++ ", "
            ++ ("max: " ++ intStr (prop.maxLength.getD 0)) ++ "\n\n") ?_),
        embedLen _ (hasSub_str (x := "**String length:** ")
          (y := ", " ++ ("max: " ++ intStr (prop.maxLength.getD 0)) ++ "\n\n") ?_)⟩
        <;> simp [lengthChunk, hmin, htr, hmax, intercalate_pair,
              String.append_assoc, String.empty_append]
  · intro n hmaxv hn
    have htr : truthyI (some n) = true := by simp [truthyI, hn]
    cases hmin : truthyI prop.minLength with
    | false =>
      refine ⟨embedLen _ (hasSub_str (x := "")
          (y := ("max: " ++ intStr n) ++ "\n\n") ?_),
        embedLen _ (hasSub_str (x := "**String length:** ") (y := "\n\n") ?_)⟩
        <;> simp [lengthChunk, hmaxv, htr, hmin, intercalate_single,
              String.append_assoc, String.empty_append]
    | true =>
      refine ⟨embedLen _ (hasSub_str (x := "")
          (y := ("min: " ++ intStr (prop.minLength.getD 0)) ++ ", "
            ++ ("max: " ++ intStr n) ++ "\n\n") ?_),
        embedLen _ (hasSub_str
          (x := "**String length:** " ++ ("min: " ++ intStr (prop.minLength.getD 0)) ++ ", ")
          (y := "\n\n") ?_)⟩
        <;> simp [lengthChunk, hmaxv, htr, hmin, intercalate_pair,
              String.append_assoc, String.empty_append]
  · intro n hminv htr
    rw [hminv] at htr
    cases hmaxv : prop.maximum with
    | none =>
      rw [hmaxv] at htr
      simp only [truthyI, Bool.or_false] at htr
      refine ⟨embedRng _ (hasSub_str (x := "")
          (y := ("min: " ++ intStr n) ++ "\n\n") ?_),
        embedRng _ (hasSub_str (x := "**Range:** ") (y := "\n\n") ?_)⟩
        <;> simp [rangeChunk, truthyI, htr, hminv, hmaxv, intercalate_single,
              String.append_assoc, String.empty_append]
    | some m =>
      rw [hmaxv] at htr
      refine ⟨embedRng _ (hasSub_str (x := "")
          (y := ("min: " ++ intStr n) ++ ", " ++ ("max: " ++ intStr m) ++ "\n\n") ?_),
        embedRng _ (hasSub_str (x := "**Range:** ")
          (y := ", " ++ ("max: " ++ intStr m) ++ "\n\n") ?_)⟩
        <;> simp [rangeChunk, htr, hminv, hmaxv, intercalate_pair,
              String.append_assoc, String.empty_append]
  · intro n hmaxv htr
    rw [hmaxv] at htr
    cases hminv : prop.minimum with
    | none =>
      rw [hminv] at htr
      simp only [truthyI, Bool.false_or] at htr
      refine ⟨embedRng _ (hasSub_str (x := "")
          (y := ("max: " ++ intStr n) ++ "\n\n") ?_),
        embedRng _ (hasSub_str (x := "**Range:** ") (y := "\n\n") ?_)⟩
        <;> simp [rangeChunk, truthyI, htr, hminv, hmaxv, intercalate_single,
              String.append_assoc, String.empty_append]
    | some m =>
      rw [hminv] at htr
      refine ⟨embedRng _ (hasSub_str (x := "")
          (y := ("min: " ++ intStr m) ++ ", " ++ ("max: " ++ intStr n) ++ "\n\n") ?_),
        embedRng _ (hasSub_str (x := "**Range:** " ++ ("min: " ++ intStr m) ++ ", ")
          (y := "\n\n") ?_)⟩
        <;> simp [rangeChunk, htr, hminv, hmaxv, intercalate_pair,
              String.append_assoc, String.empty_append]

/-- Schema property with bounds `minLength: 2`, `maxLength: 40`,
`minimum: 0`, `maximum: 10`, used as concrete witness input. -/
def boundsProp : PropF :=
  ⟨.one "integer", none, none, none, some 2, some 40, some 0, some 10, none,
    none, none⟩

/-- Concrete witness for `bound_lines_for_truthy_bounds`: all four bounds of
`boundsProp` are rendered, including the 0 minimum (stated because the
nonzero maximum passes the guard). -/
theorem bound_lines_for_truthy_bounds_witness :
    HasSub (generatePropertyDocumentation "w" boundsProp false).data
      ("min: " ++ intStr 2 : String).data
    ∧ HasSub (generatePropertyDocumentation "w" boundsProp false).data
        ("max: " ++ intStr 40 : String).data
    ∧ HasSub (generatePropertyDocumentation "w" boundsProp false).data
        ("min: " ++ intStr 0 : String).data
    ∧ HasSub (generatePropertyDocumentation "w" boundsProp false).data
        ("max: " ++ intStr 10 : String).data :=
  ⟨((bound_lines_for_truthy_bounds "w" boundsProp false).1 2 rfl (by decide)).2,
   ((bound_lines_for_truthy_bounds "w" boundsProp false).2.1 40 rfl (by decide)).2,
   ((bound_lines_for_truthy_bounds "w" boundsProp false).2.2.1 0 rfl (by decide)).2,
   ((bound_lines_for_truthy_bounds "w" boundsProp false).2.2.2 10 rfl (by decide)).2⟩

/-- C10: when the record directory is readable but contains no record files
(no `.json` files besides `schema.json`), `main` prints the no-files
warning, emits neither per-record lines nor a summary, and the process
exits 0. -/
theorem empty_record_dir_warns_exits_zero (env : PEnv) (schema : Json)
    (validate : Json → List AjvError) (names : List String)
    (h1 : env.schemaLoad = .ok schema) (h2 : env.compile schema = .ok validate)
    (h3 : env.readDir = .ok names)
    (h4 : names.filter pluginFileFilter = []) :
    runValidatePlugins env = ([.schemaLoaded, .noFilesWarn], 0) := by
  simp [runValidatePlugins, h1, h2, h3, h4]

/-- Environment whose plugins directory holds only the schema file and a
non-JSON file. -/
def emptyDirEnv : PEnv :=
  ⟨.ok .null, fun _ => .ok (fun _ => []), .ok ["schema.json", "README.md"],
    fun _ => .error "unused"⟩

/-- Concrete witness for `empty_record_dir_warns_exits_zero`. -/
theorem empty_record_dir_warns_exits_zero_witness :
    runValidatePlugins emptyDirEnv = ([.schemaLoaded, .noFilesWarn], 0) :=
  empty_record_dir_warns_exits_zero emptyDirEnv .null (fun _ => [])
    ["schema.json", "README.md"] rfl rfl rfl (by decide)

/-- C8: configuration failures (schema unreadable/unparsable for either
command; record directory unreadable for the batch command) abort the
invocation with exit code 1, are reported exactly once, and no record is
validated — the whole trace is the single failure report (plus the
schema-loaded line when the schema had loaded). -/
theorem config_failures_abort_before_records :
    (∀ (env : PEnv) (m : String), env.schemaLoad = .error m →
      runValidatePlugins env =
        ([.configError ("❌ Failed to load schema: " ++ m)], 1))
    ∧ (∀ (env : PEnv) (schema : Json) (validate : Json → List AjvError)
        (m : String), env.schemaLoad = .ok schema →
        env.compile schema = .ok validate → env.readDir = .error m →
        runValidatePlugins env =
          ([.schemaLoaded,
            .configError ("❌ Failed to read plugins directory: " ++ m)], 1))
    ∧ (∀ (env : REnv) (m : String), env.schemaLoad = .error m →
      runValidateRoadmap env =
        ([.configError ("❌ Failed to load schema: " ++ m)], 1)) := by
  refine ⟨?_, ?_, ?_⟩
  · intro env m h
    simp [runValidatePlugins, h]
  · intro env schema validate m h1 h2 h3
    simp [runValidatePlugins, h1, h2, h3]
  · intro env m h
    simp [runValidateRoadmap, h]

/-- Plugins environment whose schema file is missing. -/
def badSchemaPEnv : PEnv :=
  ⟨.error "ENOENT: no such file", fun _ => .error "x", .error "x",
    fun _ => .error "x"⟩

/-- Plugins environment whose record directory is unreadable. -/
def badDirPEnv : PEnv :=
  ⟨.ok .null, fun _ => .ok (fun _ => []), .error "EACCES",
    fun _ => .error "x"⟩

/-- Roadmap environment whose schema file is missing. -/
def badSchemaREnv : REnv :=
  ⟨.error "ENOENT: no such file", fun _ => .error "x", .error "x"⟩

/-- Concrete witness for `config_failures_abort_before_records`. -/
theorem config_failures_abort_before_records_witness :
    runValidatePlugins badSchemaPEnv =
      ([.configError ("❌ Failed to load schema: " ++ "ENOENT: no such file")], 1)
    ∧ runValidatePlugins badDirPEnv =
      ([.schemaLoaded,
        .configError ("❌ Failed to read plugins directory: " ++ "EACCES")], 1)
    ∧ runValidateRoadmap badSchemaREnv =
      ([.configError ("❌ Failed to load schema: " ++ "ENOENT: no such file")], 1) :=
  ⟨config_failures_abort_before_records.1 badSchemaPEnv _ rfl,
   config_failures_abort_before_records.2.1 badDirPEnv .null (fun _ => [])
     "EACCES" rfl rfl rfl,
   config_failures_abort_before_records.2.2 badSchemaREnv _ rfl⟩

/-- The configuration phase of a validate-plugins run succeeded: schema
loaded, schema compiled, record directory listed. -/
def ConfigOk (env : PEnv) : Prop :=
  ∃ schema validate names, env.schemaLoad = .ok schema
    ∧ env.compile schema = .ok validate ∧ env.readDir = .ok names

/-- Every per-record report line in the trace reports a pass. -/
def AllPassed (tr : List Ev) : Prop :=
  ∀ f ok es, Ev.fileLine f ok es ∈ tr → ok = true

theorem processFile_ok_iff (validate : Json → List AjvError) (env : PEnv)
    (f : String) :
    (processFile validate env f).ok = true ↔
      (processFile validate env f).errors = [] := by
  unfold processFile
  cases env.parseFile f with
  | error m => simp
  | ok j =>
    by_cases h : (validateAgainstSchema validate j).length > 0
    · have hne : validateAgainstSchema validate j ≠ [] := by
        intro he
        rw [he] at h
        simp at h
      simp [h, hne]
    · simp [h]

theorem batchOutcome_exit_zero_iff (results : List FileResult) :
    (batchOutcome results).2 = 0 ↔ ∀ r ∈ results, r.errors = [] := by
  have key : (batchOutcome results).2 = 0 ↔
      (results.map (fun r => r.errors.length)).sum = 0 := by
    simp only [batchOutcome]
    by_cases hpos : (results.map (fun r => r.errors.length)).sum > 0
    · rw [if_pos hpos]
      constructor
      · intro h
        exact absurd h (by simp)
      · intro h
        omega
    · rw [if_neg hpos]
      constructor
      · intro _
        omega
      · intro _
        rfl
  rw [key, List.sum_eq_zero_iff]
  constructor
  · intro h r hr
    exact List.length_eq_zero.mp (h _ (List.mem_map.mpr ⟨r, hr, rfl⟩))
  · intro h x hx
    obtain ⟨r, hr, rfl⟩ := List.mem_map.mp hx
    rw [h r hr]
    rfl

theorem batchOutcome_allPassed_iff (results : List FileResult) :
    AllPassed (batchOutcome results).1 ↔ ∀ r ∈ results, r.ok = true := by
  simp only [batchOutcome, AllPassed]
  constructor
  · intro h r hr
    refine h r.file r.ok r.errors ?_
    have hm : Ev.fileLine r.file r.ok r.errors ∈
        results.map (fun r => Ev.fileLine r.file r.ok r.errors) :=
      List.mem_map_of_mem _ hr
    exact List.mem_append_left _ (List.mem_append_left _ (List.mem_append_right _ hm))
  · intro h f ok es hmem
    simp only [List.append_assoc, List.mem_append, List.mem_cons,
      List.mem_singleton, List.mem_map, List.not_mem_nil, or_false] at hmem
    rcases hmem with (hmem | hmem) | ⟨r, hr, heq⟩ | hmem | hmem
    · exact absurd hmem (by simp)
    · exact absurd hmem (by simp)
    · injection heq with e1 e2 e3
      rw [← e2]
      exact h r hr
    · exact absurd hmem (by simp)
    · exact absurd hmem (by split <;> simp)

/-- C2: the validate-records command exits 0 exactly when configuration
succeeded and every reported record passed; any failed record (each of
which contributes at least one error) or any configuration failure forces
exit code 1. -/
theorem exit_zero_iff_all_records_pass (env : PEnv) :
    (runValidatePlugins env).2 = 0 ↔
      ConfigOk env ∧ AllPassed (runValidatePlugins env).1 := by
  cases hs : env.schemaLoad with
  | error m =>
    have hrun : runValidatePlugins env =
        ([.configError ("❌ Failed to load schema: " ++ m)], 1) := by
      simp [runValidatePlugins, hs]
    rw [hrun]
    simp [ConfigOk, hs]
  | ok schema =>
    cases hc : env.compile schema with
    | error m =>
      have hrun : runValidatePlugins env =
          ([.schemaLoaded, .configError ("❌ Failed to compile schema: " ++ m)], 1) := by
        simp [runValidatePlugins, hs, hc]
      rw [hrun]
      simp [ConfigOk, hs, hc]
    | ok validate =>
      cases hd : env.readDir with
      | error m =>
        have hrun : runValidatePlugins env =
            ([.schemaLoaded,
              .configError ("❌ Failed to read plugins directory: " ++ m)], 1) := by
          simp [runValidatePlugins, hs, hc, hd]
        rw [hrun]
        simp [ConfigOk, hs, hc, hd]
      | ok names =>
        by_cases hemp : (names.filter pluginFileFilter).isEmpty
        · have hrun : runValidatePlugins env = ([.schemaLoaded, .noFilesWarn], 0) := by
            simp [runValidatePlugins, hs, hc, hd, hemp]
          rw [hrun]
          constructor
          · intro _
            refine ⟨⟨schema, validate, names, hs, hc, hd⟩, ?_⟩
            intro f ok es hmem
            simp at hmem
          · intro _
            rfl
        · have hrun : runValidatePlugins env =
              batchOutcome ((names.filter pluginFileFilter).map
                (processFile validate env)) := by
            simp [runValidatePlugins, hs, hc, hd, hemp]
          rw [hrun, batchOutcome_exit_zero_iff, batchOutcome_allPassed_iff]
          constructor
          · intro h
            refine ⟨⟨schema, validate, names, hs, hc, hd⟩, ?_⟩
            intro r hr
            obtain ⟨f, hf, rfl⟩ := List.mem_map.mp hr
            exact (processFile_ok_iff validate env f).mpr (h _ hr)
          · rintro ⟨-, h⟩ r hr
            obtain ⟨f, hf, rfl⟩ := List.mem_map.mp hr
            exact (processFile_ok_iff validate env f).mp (h _ hr)

theorem sum_map_zero {α : Type} (A : List α) :
    (A.map (fun _ => (0 : Nat))).sum = 0 := by
  induction A with
  | nil => rfl
  | cons a as ih => simp [ih]

/-- C1: in a batch where exactly one record file is unparsable JSON and
every other file parses and validates cleanly, `main` reports each valid
file as passed and the unparsable file as failed with a single parse
error, processes every file to completion (one report line per file, in
directory order), and the final summary counts the passed and failed
records — e.g. three files with the second unparsable give passed 2,
failed 1. -/
theorem batch_isolates_parse_failure (env : PEnv) (schema : Json)
    (validate : Json → List AjvError) (names : List String)
    (A B : List String) (bad : String) (m : String)
    (h1 : env.schemaLoad = .ok schema) (h2 : env.compile schema = .ok validate)
    (h3 : env.readDir = .ok names)
    (h4 : names.filter pluginFileFilter = A ++ bad :: B)
    (h5 : ∀ f ∈ A ++ B, ∃ j, env.parseFile f = .ok j ∧ validate j = [])
    (h6 : env.parseFile bad = .error m) :
    runValidatePlugins env =
      ([.schemaLoaded, .validating (A.length + 1 + B.length)]
        ++ A.map (fun f => .fileLine f true [])
        ++ [.fileLine bad false ["JSON Parse Error: " ++ m]]
        ++ B.map (fun f => .fileLine f true [])
        ++ [.summary (A.length + B.length) 1 1, .finalFail], 1) := by
  have hAok : ∀ f ∈ A, processFile validate env f = ⟨f, true, []⟩ := by
    intro f hf
    obtain ⟨j, hj, hv⟩ := h5 f (List.mem_append_left _ hf)
    simp [processFile, hj, validateAgainstSchema, hv]
  have hBok : ∀ f ∈ B, processFile validate env f = ⟨f, true, []⟩ := by
    intro f hf
    obtain ⟨j, hj, hv⟩ := h5 f (List.mem_append_right _ hf)
    simp [processFile, hj, validateAgainstSchema, hv]
  have hbad : processFile validate env bad =
      ⟨bad, false, ["JSON Parse Error: " ++ m]⟩ := by
    simp [processFile, h6]
  have hres : (A ++ bad :: B).map (processFile validate env)
      = A.map (fun f => (⟨f, true, []⟩ : FileResult))
        ++ (⟨bad, false, ["JSON Parse Error: " ++ m]⟩ : FileResult)
          :: B.map (fun f => (⟨f, true, []⟩ : FileResult)) := by
    rw [List.map_append, List.map_cons, hbad,
      List.map_congr_left hAok, List.map_congr_left hBok]
  have hne : ¬ (names.filter pluginFileFilter).isEmpty := by
    rw [h4]
    simp
  have hrun : runValidatePlugins env =
      batchOutcome ((names.filter pluginFileFilter).map
        (processFile validate env)) := by
    simp [runValidatePlugins, h1, h2, h3, hne]
  rw [hrun, h4, hres]
  simp [batchOutcome, List.filter_append, List.filter_map, Function.comp_def,
    List.sum_append, List.map_map, sum_map_zero]
  omega

/-- Environment with three record files of which the second is unparsable
JSON. -/
def parseFailEnv : PEnv :=
  ⟨.ok .null, fun _ => .ok (fun _ => []),
    .ok ["a.json", "bad.json", "c.json", "schema.json"],
    fun f => if f == "bad.json" then .error "Unexpected token" else .ok .null⟩

/-- Concrete witness for `batch_isolates_parse_failure`: three files, the
second unparsable, giving passed 2 / failed 1 and exit code 1. -/
theorem batch_isolates_parse_failure_witness :
    runValidatePlugins parseFailEnv =
      ([.schemaLoaded, .validating 3, .fileLine "a.json" true [],
        .fileLine "bad.json" false ["JSON Parse Error: Unexpected token"],
        .fileLine "c.json" true [], .summary 2 1 1, .finalFail], 1) := by
  exact batch_isolates_parse_failure parseFailEnv .null (fun _ => [])
    ["a.json", "bad.json", "c.json", "schema.json"] ["a.json"] ["c.json"]
    "bad.json" "Unexpected token" rfl rfl rfl (by decide)
    (by
      intro f hf
      simp only [List.singleton_append, List.mem_cons, List.not_mem_nil,
        or_false] at hf
      rcases hf with rfl | rfl
      · exact ⟨.null, rfl, rfl⟩
      · exact ⟨.null, rfl, rfl⟩)
    rfl

theorem noNL_append (a b : List Char) : noNL (a ++ b) = (noNL a && noNL b) :=
  List.all_append

/-- C4: generating the markdown twice from the same in-memory schema is
byte-identical except for the timestamp; the timestamp is confined to the
single final line of the document (every line before it is a function of
the schema alone, shared between the two runs). -/
theorem markdown_deterministic_up_to_timestamp (schema : Schema)
    (t t' : String) (ht : noNL t.data = true) (ht' : noNL t'.data = true) :
    ∃ (b : String) (pre : List (List Char)),
      generateMarkdown schema t = b ++ ("**Last updated:** " ++ t ++ "\n")
      ∧ generateMarkdown schema t' = b ++ ("**Last updated:** " ++ t' ++ "\n")
      ∧ splitLines (generateMarkdown schema t).data
          = pre ++ [("**Last updated:** " ++ t).data, []]
      ∧ splitLines (generateMarkdown schema t').data
          = pre ++ [("**Last updated:** " ++ t').data, []] := by
  have hlu : noNL ("**Last updated:** " : String).data = true := by decide
  have key : ∀ ts : String, noNL ts.data = true →
      splitLines (generateMarkdown schema ts).data
        = splitLines (headConst1 ++ overviewStr schema.description ++ headConst2
            ++ requiredSection (schema.required.getD []) ++ midConst
            ++ fieldRefSection (schema.required.getD []) schema.properties
            ++ tailBody0).data
          ++ [("**Last updated:** " ++ ts).data, []] := by
    intro ts hts
    have e1 : (generateMarkdown schema ts).data
        = (headConst1 ++ overviewStr schema.description ++ headConst2
            ++ requiredSection (schema.required.getD []) ++ midConst
            ++ fieldRefSection (schema.required.getD []) schema.properties
            ++ tailBody0).data
          ++ '\n' :: (("**Last updated:** " ++ ts).data ++ '\n' :: []) := by
      simp only [generateMarkdown, tailConst, tailBody, String.data_append,
        List.append_assoc, List.cons_append, List.nil_append]
    have hlut : noNL ("**Last updated:** " ++ ts).data = true := by
      rw [String.data_append, noNL_append, hlu, hts, Bool.and_self]
    rw [e1]
    rw [splitLines_append_newline]
    rw [splitLines_append_newline]
    rw [splitLines_of_noNL (("**Last updated:** " ++ ts).data) hlut]
    rfl
  refine ⟨headConst1 ++ overviewStr schema.description ++ headConst2
      ++ requiredSection (schema.required.getD []) ++ midConst
      ++ fieldRefSection (schema.required.getD []) schema.properties
      ++ tailBody0 ++ "\n",
    splitLines (headConst1 ++ overviewStr schema.description ++ headConst2
      ++ requiredSection (schema.required.getD []) ++ midConst
      ++ fieldRefSection (schema.required.getD []) schema.properties
      ++ tailBody0).data, ?_, ?_, key t ht, key t' ht'⟩
  · simp only [generateMarkdown, tailConst, tailBody, String.append_assoc]
  · simp only [generateMarkdown, tailConst, tailBody, String.append_assoc]

/-- Minimal schema used as concrete witness input. -/
def tinySchema : Schema := ⟨some "Test schema", some ["id"], []⟩

/-- Concrete witness for `markdown_deterministic_up_to_timestamp`, at two
distinct ISO timestamps. -/
theorem markdown_deterministic_up_to_timestamp_witness :
    ∃ (b : String) (pre : List (List Char)),
      generateMarkdown tinySchema "2025-01-01T00:00:00.000Z"
          = b ++ ("**Last updated:** " ++ "2025-01-01T00:00:00.000Z" ++ "\n")
      ∧ generateMarkdown tinySchema "2025-06-01T12:00:00.000Z"
          = b ++ ("**Last updated:** " ++ "2025-06-01T12:00:00.000Z" ++ "\n")
      ∧ splitLines (generateMarkdown tinySchema "2025-01-01T00:00:00.000Z").data
          = pre ++ [("**Last updated:** " ++ "2025-01-01T00:00:00.000Z").data, []]
      ∧ splitLines (generateMarkdown tinySchema "2025-06-01T12:00:00.000Z").data
          = pre ++ [("**Last updated:** " ++ "2025-06-01T12:00:00.000Z").data, []] :=
  markdown_deterministic_up_to_timestamp tinySchema
    "2025-01-01T00:00:00.000Z" "2025-06-01T12:00:00.000Z"
    (by decide) (by decide)

theorem cntLine_cons_newline (x z : List Char) (hx : x ≠ []) :
    cntLine x ('\n' :: z) = cntLine x z := by
  unfold cntLine
  have h1 : (([] : List Char) == x) = false := by
    rw [beq_eq_false_iff_ne]
    exact fun h => hx h.symm
  rw [splitLines_cons_nl, List.count_cons, h1]
  simp

theorem cntLine_append_of_endsNL (x a b : List Char) (hx : x ≠ [])
    (ha : a.getLast? = some '\n') :
    cntLine x (a ++ b) = cntLine x a + cntLine x b := by
  rcases List.eq_nil_or_concat a with rfl | ⟨a', c, rfl⟩
  · simp at ha
  · rw [List.concat_eq_append] at *
    rw [List.getLast?_concat] at ha
    injection ha with ha
    subst ha
    rw [List.append_assoc, List.singleton_append, cntLine_append_newline]
    have h2 : cntLine x (a' ++ ['\n']) = cntLine x a' := by
      have h3 := cntLine_append_newline x a' []
      rw [h3, cntLine_nil x hx]
      exact Nat.add_zero _
    rw [h2]

theorem strEndsNL_append (a b : String) (hb : b.data.getLast? = some '\n') :
    (a ++ b).data.getLast? = some '\n' := by
  rw [String.data_append, List.getLast?_append, hb]
  rfl

theorem strEndsNL_append_opt (a b : String) (ha : a.data.getLast? = some '\n')
    (hb : b = "" ∨ b.data.getLast? = some '\n') :
    (a ++ b).data.getLast? = some '\n' := by
  rcases hb with rfl | hb
  · rw [String.append_empty]
    exact ha
  · exact strEndsNL_append a b hb

theorem descChunk_empty_or_endsNL (d : Option String) :
    descChunk d = "" ∨ (descChunk d).data.getLast? = some '\n' := by
  unfold descChunk
  split
  · exact Or.inr (strEndsNL_append _ "\n\n" (by decide))
  · exact Or.inl rfl

theorem strConcat_empty_or_endsNL (l : List String)
    (h : ∀ s ∈ l, s.data.getLast? = some '\n') :
    strConcat l = "" ∨ (strConcat l).data.getLast? = some '\n' := by
  induction l with
  | nil => exact Or.inl rfl
  | cons s ss ih =>
    refine Or.inr (strEndsNL_append_opt s (strConcat ss)
      (h s (List.mem_cons_self s ss)) ?_)
    exact ih (fun t ht => h t (List.mem_cons_of_mem s ht))

theorem enumChunk_empty_or_endsNL (e : Option (List Json)) :
    enumChunk e = "" ∨ (enumChunk e).data.getLast? = some '\n' := by
  unfold enumChunk
  cases e with
  | none => exact Or.inl rfl
  | some vs => exact Or.inr (strEndsNL_append _ "\n" (by decide))

theorem patternChunk_empty_or_endsNL (p : Option String) :
    patternChunk p = "" ∨ (patternChunk p).data.getLast? = some '\n' := by
  unfold patternChunk
  split
  · exact Or.inr (strEndsNL_append _ "`\n\n" (by decide))
  · exact Or.inl rfl

theorem lengthChunk_empty_or_endsNL (a b : Option Int) :
    lengthChunk a b = "" ∨ (lengthChunk a b).data.getLast? = some '\n' := by
  unfold lengthChunk
  split
  · exact Or.inr (strEndsNL_append _ "\n\n" (by decide))
  · exact Or.inl rfl

theorem rangeChunk_empty_or_endsNL (a b : Option Int) :
    rangeChunk a b = "" ∨ (rangeChunk a b).data.getLast? = some '\n' := by
  unfold rangeChunk
  split
  · exact Or.inr (strEndsNL_append _ "\n\n" (by decide))
  · exact Or.inl rfl

theorem examplesChunk_empty_or_endsNL (e : Option (List Json)) :
    examplesChunk e = "" ∨ (examplesChunk e).data.getLast? = some '\n' := by
  cases e with
  | none => exact Or.inl rfl
  | some es =>
    simp only [examplesChunk]
    split
    · exact Or.inr (strEndsNL_append _ "\n\n" (by decide))
    · exact Or.inl rfl

theorem defaultChunk_empty_or_endsNL (d : Option Json) :
    defaultChunk d = "" ∨ (defaultChunk d).data.getLast? = some '\n' := by
  cases d with
  | none => exact Or.inl rfl
  | some v => exact Or.inr (strEndsNL_append _ "`\n\n" (by decide))

theorem propDocRest_endsNL (p : PropF) (r : Bool) :
    (propDocRest p r).data.getLast? = some '\n' := by
  unfold propDocRest
  apply strEndsNL_append_opt _ _ ?_ (defaultChunk_empty_or_endsNL _)
  apply strEndsNL_append_opt _ _ ?_ (examplesChunk_empty_or_endsNL _)
  apply strEndsNL_append_opt _ _ ?_ (rangeChunk_empty_or_endsNL _ _)
  apply strEndsNL_append_opt _ _ ?_ (lengthChunk_empty_or_endsNL _ _)
  apply strEndsNL_append_opt _ _ ?_ (patternChunk_empty_or_endsNL _)
  apply strEndsNL_append_opt _ _ ?_ (enumChunk_empty_or_endsNL _)
  apply strEndsNL_append_opt _ _ ?_ (descChunk_empty_or_endsNL _)
  exact strEndsNL_append _ "\n\n" (by decide)

theorem generatePropertyDocumentation_endsNL (n : String) (p : PropF) (r : Bool) :
    (generatePropertyDocumentation n p r).data.getLast? = some '\n' := by
  unfold generatePropertyDocumentation
  exact strEndsNL_append _ _ (propDocRest_endsNL p r)

theorem nestedObjectDoc_empty_or_endsNL (n : String) (p : SchemaProp)
    (pp : String) :
    generateNestedObjectDocumentation n p pp = ""
    ∨ (generateNestedObjectDocumentation n p pp).data.getLast? = some '\n' := by
  simp only [generateNestedObjectDocumentation]
  split
  · refine Or.inr (strEndsNL_append_opt _ _ (strEndsNL_append_opt _ _ ?_ ?_) ?_)
    · apply strEndsNL_append_opt _ _ ?_ (descChunk_empty_or_endsNL _)
      exact strEndsNL_append _ "`\n\n" (by decide)
    · split
      · exact strConcat_empty_or_endsNL _ (by
          intro t ht
          obtain ⟨ch, _, rfl⟩ := List.mem_map.mp ht
          exact generatePropertyDocumentation_endsNL _ _ _)
      · exact Or.inl rfl
    · split
      · split
        · refine Or.inr (strEndsNL_append_opt "#### Item Properties\n\n" _
            (by decide) ?_)
          exact strConcat_empty_or_endsNL _ (by
            intro t ht
            obtain ⟨ip, _, rfl⟩ := List.mem_map.mp ht
            exact generatePropertyDocumentation_endsNL _ _ _)
        · exact Or.inl rfl
      · exact Or.inl rfl
  · exact Or.inl rfl

theorem arrayItemsSection_empty_or_endsNL (n : String) (p : SchemaProp) :
    arrayItemsSection n p = ""
    ∨ (arrayItemsSection n p).data.getLast? = some '\n' := by
  simp only [arrayItemsSection]
  split
  · split
    · split
      · refine Or.inr (strEndsNL_append_opt _ _ ?_ ?_)
        · apply strEndsNL_append_opt _ _ ?_ (descChunk_empty_or_endsNL _)
          exact strEndsNL_append _ "[]` - Array Items\n\n" (by decide)
        · exact strConcat_empty_or_endsNL _ (by
            intro t ht
            obtain ⟨ip, _, rfl⟩ := List.mem_map.mp ht
            exact generatePropertyDocumentation_endsNL _ _ _)
      · exact Or.inl rfl
    · exact Or.inl rfl
  · exact Or.inl rfl

theorem topPropertyBlock_endsNL (req : List String) (n : String) (p : SchemaProp) :
    (topPropertyBlock req n p).data.getLast? = some '\n' := by
  unfold topPropertyBlock
  apply strEndsNL_append_opt _ _ ?_ (arrayItemsSection_empty_or_endsNL _ _)
  apply strEndsNL_append_opt _ _ (generatePropertyDocumentation_endsNL _ _ _) ?_
  split
  · exact nestedObjectDoc_empty_or_endsNL _ _ _
  · exact Or.inl rfl

theorem cntLine_strConcat_append (x : List Char) (hx : x ≠ [])
    (l : List String) (hl : ∀ s ∈ l, s.data.getLast? = some '\n')
    (rest : List Char) :
    cntLine x ((strConcat l).data ++ rest)
      = (l.map (fun s => cntLine x s.data)).sum + cntLine x rest := by
  induction l with
  | nil => simp [strConcat]
  | cons s ss ih =>
    have e : (strConcat (s :: ss)).data ++ rest
        = s.data ++ ((strConcat ss).data ++ rest) := by
      show (s ++ strConcat ss).data ++ rest = _
      rw [String.data_append, List.append_assoc]
    rw [e, cntLine_append_of_endsNL x s.data _ hx (hl s (List.mem_cons_self s ss)),
      ih (fun t ht => hl t (List.mem_cons_of_mem s ht))]
    simp [Nat.add_assoc]

/-- The heading line emitted for a property named `name` by
`generatePropertyDocumentation`. -/
def headingLine (name : String) : List Char := ("#### `" ++ name ++ "`").data

theorem str_ext {a b : String} (h : a.data = b.data) : a = b := by
  cases a
  cases b
  exact congrArg String.mk h

theorem headingLine_ne_nil (name : String) : headingLine name ≠ [] := by
  intro h
  have := congrArg List.length h
  simp [headingLine, String.data_append] at this

theorem headingLine_inj {a b : String} (h : headingLine a = headingLine b) :
    a = b := by
  unfold headingLine at h
  rw [String.data_append, String.data_append, String.data_append,
    String.data_append] at h
  have h1 := List.append_cancel_right h
  have h2 := List.append_cancel_left h1
  cases a with
  | mk da =>
    cases b with
    | mk db => exact congrArg String.mk h2

theorem noNL_headingLine {name : String} (hn : noNL name.data = true) :
    noNL (headingLine name) = true := by
  have c1 : noNL ("#### `" : String).data = true := by decide
  have c2 : noNL ("`" : String).data = true := by decide
  unfold headingLine
  rw [String.data_append, String.data_append, noNL_append, noNL_append,
    c1, hn, c2]
  rfl

theorem bullet_ne_headingLine (f name : String) :
    ("- `" ++ f ++ "`").data ≠ headingLine name := by
  intro h
  have := congrArg List.head? h
  simp [headingLine, String.data_append] at this

theorem lastline_ne_headingLine (ts name : String) :
    ("**Last updated:** " ++ ts).data ≠ headingLine name := by
  intro h
  have := congrArg List.head? h
  simp [headingLine, String.data_append] at this

theorem noNL_bullet {f : String} (hf : noNL f.data = true) :
    noNL (("- `" ++ f ++ "`").data) = true := by
  have c1 : noNL ("- `" : String).data = true := by decide
  have c2 : noNL ("`" : String).data = true := by decide
  rw [String.data_append, String.data_append, noNL_append, noNL_append,
    c1, hf, c2]
  rfl

/-- Everything the top-level loop emits for one property after that
property's heading line. -/
def blockTail (required : List String) (propName : String)
    (prop : SchemaProp) : String :=
  "\n" ++ propDocRest prop.f (required.contains propName)
    ++ (if typeIs prop.f.type "object" && prop.properties.isSome then
          generateNestedObjectDocumentation propName prop ""
        else "")
    ++ arrayItemsSection propName prop

theorem topPropertyBlock_split (req : List String) (n : String)
    (p : SchemaProp) :
    topPropertyBlock req n p
      = ("#### `" ++ n ++ "`") ++ "\n" ++ blockTail req n p := by
  apply str_ext
  unfold topPropertyBlock generatePropertyDocumentation blockTail
  simp [String.data_append, List.append_assoc]

theorem cnt_topPropertyBlock (name : String) (req : List String) (n : String)
    (p : SchemaProp) (hn : noNL n.data = true) :
    cntLine (headingLine name) (topPropertyBlock req n p).data
      = (if n = name then 1 else 0)
        + cntLine (headingLine name) (blockTail req n p).data := by
  have e : (topPropertyBlock req n p).data
      = headingLine n ++ '\n' :: (blockTail req n p).data := by
    rw [topPropertyBlock_split]
    simp only [headingLine, String.data_append, List.append_assoc,
      List.cons_append, List.nil_append]
  rw [e, cntLine_append_newline, cntLine_of_noNL _ _ (noNL_headingLine hn)]
  congr 1
  by_cases h : n = name
  · simp [h]
  · have hne : ¬ headingLine n = headingLine name :=
      fun hh => h (headingLine_inj hh)
    simp [h, hne]

theorem sum_indicator_zero (name : String)
    (props : List (String × SchemaProp))
    (h : name ∉ props.map Prod.fst) :
    (props.map (fun np => if np.1 = name then 1 else 0)).sum = 0 := by
  induction props with
  | nil => rfl
  | cons q qs ih =>
    simp only [List.map_cons, List.mem_cons, not_or] at h
    simp only [List.map_cons, List.sum_cons]
    rw [if_neg (fun hq => h.1 hq.symm), ih h.2]

theorem sum_indicator_one (name : String)
    (props : List (String × SchemaProp))
    (hnd : (props.map Prod.fst).Nodup)
    (hm : name ∈ props.map Prod.fst) :
    (props.map (fun np => if np.1 = name then 1 else 0)).sum = 1 := by
  induction props with
  | nil => simp at hm
  | cons q qs ih =>
    rw [List.map_cons] at hnd hm
    rw [List.nodup_cons] at hnd
    rw [List.mem_cons] at hm
    simp only [List.map_cons, List.sum_cons]
    rcases hm with hm | hm
    · rw [if_pos hm.symm, sum_indicator_zero name qs (hm ▸ hnd.1)]
    · have hq : ¬ q.1 = name := fun h => hnd.1 (h ▸ hm)
      rw [if_neg hq, ih hnd.2 hm]

/-- Per-line decomposition of the whole generated markdown document: the
number of lines equal to `x` is the sum of the contributions of the fixed
template parts, the interpolated overview, the required-fields bullets, the
per-property blocks, and the timestamp line. -/
theorem cnt_generateMarkdown (s : Schema) (ts : String) (x : List Char)
    (hx : x ≠ []) :
    cntLine x (generateMarkdown s ts).data
      = cntLine x headConst1.data
        + cntLine x (overviewStr s.description).data
        + cntLine x headConst2t.data
        + ((s.required.getD []).map
            (fun f => cntLine x ("- `" ++ f ++ "`\n").data)).sum
        + cntLine x midConstT.data
        + (s.properties.map (fun np =>
            cntLine x (topPropertyBlock (s.required.getD []) np.1 np.2).data)).sum
        + cntLine x tailBody0t.data
        + cntLine x ("**Last updated:** " ++ ts).data := by
  have e : (generateMarkdown s ts).data
      = headConst1.data ++ ((overviewStr s.description).data ++ '\n' ::
          (headConst2t.data ++ ((requiredSection (s.required.getD [])).data ++ '\n' ::
            (midConstT.data ++ ((fieldRefSection (s.required.getD []) s.properties).data ++ '\n' ::
              (tailBody0t.data ++ '\n' ::
                (("**Last updated:** " ++ ts).data ++ '\n' :: ([] : List Char)))))))) := by
    simp only [generateMarkdown, headConst2, midConst, tailConst, tailBody,
      tailBody0, String.data_append, List.append_assoc, List.cons_append,
      List.nil_append]
  rw [e]
  rw [cntLine_append_of_endsNL x headConst1.data _ hx (by decide)]
  rw [cntLine_append_newline]
  rw [cntLine_append_of_endsNL x headConst2t.data _ hx (by decide)]
  rw [show requiredSection (s.required.getD [])
      = strConcat ((s.required.getD []).map (fun f => "- `" ++ f ++ "`\n"))
    from rfl]
  rw [cntLine_strConcat_append x hx _ (by
    intro t ht
    obtain ⟨f, _, rfl⟩ := List.mem_map.mp ht
    exact strEndsNL_append _ "`\n" (by decide))]
  rw [cntLine_cons_newline x _ hx]
  rw [cntLine_append_of_endsNL x midConstT.data _ hx (by decide)]
  rw [show fieldRefSection (s.required.getD []) s.properties
      = strConcat (s.properties.map
          (fun np => topPropertyBlock (s.required.getD []) np.1 np.2))
    from rfl]
  rw [cntLine_strConcat_append x hx _ (by
    intro t ht
    obtain ⟨np, _, rfl⟩ := List.mem_map.mp ht
    exact topPropertyBlock_endsNL _ _ _)]
  rw [cntLine_cons_newline x _ hx]
  rw [cntLine_append_newline]
  rw [cntLine_append_newline]
  rw [cntLine_nil x hx]
  simp only [List.map_map, Function.comp_def]
  ring

set_option maxRecDepth 100000

theorem splitLines_requiredSection (req : List String)
    (h : ∀ f ∈ req, noNL f.data = true) :
    splitLines (requiredSection req).data
      = req.map (fun f => ("- `" ++ f ++ "`").data) ++ [[]] := by
  induction req with
  | nil => rfl
  | cons f fs ih =>
    have e : (requiredSection (f :: fs)).data
        = ("- `" ++ f ++ "`").data ++ '\n' :: (requiredSection fs).data := by
      simp [requiredSection, strConcat, String.data_append, List.append_assoc]
    rw [e, splitLines_append_newline,
      splitLines_of_noNL _ (noNL_bullet (h f (List.mem_cons_self f fs))),
      ih (fun g hg => h g (List.mem_cons_of_mem f hg))]
    simp

theorem bullet_inj :
    Function.Injective (fun f : String => ("- `" ++ f ++ "`").data) := by
  intro a b h
  simp only at h
  rw [String.data_append, String.data_append, String.data_append,
    String.data_append] at h
  have h1 := List.append_cancel_right h
  have h2 := List.append_cancel_left h1
  exact str_ext h2

theorem count_bullet_map (req : List String) (rname : String)
    (hrnd : req.Nodup) (hrmem : rname ∈ req) :
    (req.map (fun f => ("- `" ++ f ++ "`").data)).count
      (("- `" ++ rname ++ "`").data) = 1 := by
  induction req with
  | nil => simp at hrmem
  | cons f fs ih =>
    rw [List.nodup_cons] at hrnd
    rw [List.mem_cons] at hrmem
    rw [List.map_cons, List.count_cons]
    rcases hrmem with heq | hm
    · rw [heq]
      have hz : (fs.map (fun g => ("- `" ++ g ++ "`").data)).count
          (("- `" ++ f ++ "`").data) = 0 := by
        rw [List.count_eq_zero]
        intro hmem2
        obtain ⟨g, hg, he⟩ := List.mem_map.mp hmem2
        have hgf : g = f := bullet_inj he
        exact hrnd.1 (hgf ▸ hg)
      rw [hz]
      simp
    · have hfr : ¬ f = rname := by
        intro hf
        exact hrnd.1 (hf ▸ hm)
      have hbe : ((("- `" ++ f ++ "`").data)
          == (("- `" ++ rname ++ "`").data)) = false := by
        rw [beq_eq_false_iff_ne]
        intro he
        exact hfr (bullet_inj he)
      rw [ih hrnd.2 hm, hbe]
      simp

theorem headingLine_as_pre (name : String) :
    headingLine name = ("#### `" : String).data ++ (name.data ++ ['`']) := by
  simp [headingLine, String.data_append, List.append_assoc]

theorem cnt_bulletEntry_zero (name f : String) (hf : noNL f.data = true) :
    cntLine (headingLine name) ("- `" ++ f ++ "`\n").data = 0 := by
  have e : ("- `" ++ f ++ "`\n").data
      = ("- `" ++ f ++ "`").data ++ '\n' :: [] := by
    simp [String.data_append, List.append_assoc]
  rw [e, cntLine_append_newline, cntLine_nil _ (headingLine_ne_nil name),
    cntLine_of_noNL _ _ (noNL_bullet hf),
    if_neg (bullet_ne_headingLine f name)]

/-- C5: every property name in the schema's top-level `properties` mapping
produces exactly one heading line in the generated markdown, and every
name in the root `required` list appears exactly once in the Required
Fields bullet list, whose lines are exactly the required names in
schema-declared order.  Hypotheses: the property keys are distinct (JS
object keys always are) and the required list has no duplicates; names,
required entries and the timestamp contain no newline; and neither the
interpolated schema description nor any property's block body happens to
contain the heading line itself. -/
theorem property_headings_and_required_bullets (s : Schema)
    (ts name rname : String)
    (hts : noNL ts.data = true)
    (hkeys : (s.properties.map Prod.fst).Nodup)
    (hmem : name ∈ s.properties.map Prod.fst)
    (hnames : ∀ np ∈ s.properties, noNL (np.1 : String).data = true)
    (hreqN : ∀ f ∈ s.required.getD [], noNL f.data = true)
    (hov : cntLine (headingLine name) (overviewStr s.description).data = 0)
    (htails : ∀ np ∈ s.properties,
      cntLine (headingLine name)
        (blockTail (s.required.getD []) np.1 np.2).data = 0)
    (hrnd : (s.required.getD []).Nodup)
    (hrmem : rname ∈ s.required.getD []) :
    cntLine (headingLine name) (generateMarkdown s ts).data = 1
    ∧ splitLines (requiredSection (s.required.getD [])).data
        = (s.required.getD []).map (fun f => ("- `" ++ f ++ "`").data) ++ [[]]
    ∧ ((s.required.getD []).map (fun f => ("- `" ++ f ++ "`").data)).count
        (("- `" ++ rname ++ "`").data) = 1 := by
  refine ⟨?_, splitLines_requiredSection _ hreqN, ?_⟩
  · rw [cnt_generateMarkdown s ts _ (headingLine_ne_nil name)]
    have t1 : cntLine (headingLine name) headConst1.data = 0 := by
      rw [headingLine_as_pre]
      exact cntLine_zero_of_no_pre _ _ _ (by decide)
    have t3 : cntLine (headingLine name) headConst2t.data = 0 := by
      rw [headingLine_as_pre]
      exact cntLine_zero_of_no_pre _ _ _ (by decide)
    have t5 : cntLine (headingLine name) midConstT.data = 0 := by
      rw [headingLine_as_pre]
      exact cntLine_zero_of_no_pre _ _ _ (by decide)
    have t7 : cntLine (headingLine name) tailBody0t.data = 0 := by
      rw [headingLine_as_pre]
      exact cntLine_zero_of_no_pre _ _ _ (by decide)
    have t4 : ((s.required.getD []).map
        (fun f => cntLine (headingLine name) ("- `" ++ f ++ "`\n").data)).sum = 0 := by
      rw [List.sum_eq_zero_iff]
      intro v hv
      obtain ⟨f, hf, rfl⟩ := List.mem_map.mp hv
      exact cnt_bulletEntry_zero name f (hreqN f hf)
    have t6 : (s.properties.map (fun np =>
        cntLine (headingLine name)
          (topPropertyBlock (s.required.getD []) np.1 np.2).data)).sum = 1 := by
      rw [List.map_congr_left (fun np hnp => by
        rw [cnt_topPropertyBlock name _ np.1 np.2 (hnames np hnp), htails np hnp])]
      simp only [Nat.add_zero]
      exact sum_indicator_one name s.properties hkeys hmem
    have t8 : cntLine (headingLine name) ("**Last updated:** " ++ ts).data = 0 := by
      have hl8 : noNL ("**Last updated:** " ++ ts).data = true := by
        rw [String.data_append, noNL_append, hts]
        have h9 : noNL ("**Last updated:** " : String).data = true := by decide
        rw [h9]
        rfl
      rw [cntLine_of_noNL _ _ hl8, if_neg (lastline_ne_headingLine ts name)]
    rw [t1, t3, t5, t7, t4, t6, t8, hov]
  · exact count_bullet_map _ rname hrnd hrmem

/-- C9: a schema whose root `required` list names a property absent from
`properties` is still rendered (the generator is a total function and never
raises): the dangling name appears as a bullet line in the Required Fields
section, and no property heading is generated for it anywhere in the
document. -/
theorem dangling_required_best_effort (s : Schema) (ts name : String)
    (hts : noNL ts.data = true)
    (hnot : name ∉ s.properties.map Prod.fst)
    (hnames : ∀ np ∈ s.properties, noNL (np.1 : String).data = true)
    (hreqN : ∀ f ∈ s.required.getD [], noNL f.data = true)
    (hov : cntLine (headingLine name) (overviewStr s.description).data = 0)
    (htails : ∀ np ∈ s.properties,
      cntLine (headingLine name)
        (blockTail (s.required.getD []) np.1 np.2).data = 0)
    (hmem : name ∈ s.required.getD []) :
    ("- `" ++ name ++ "`").data
      ∈ splitLines (requiredSection (s.required.getD [])).data
    ∧ cntLine (headingLine name) (generateMarkdown s ts).data = 0 := by
  constructor
  · rw [splitLines_requiredSection _ hreqN]
    exact List.mem_append_left _ (List.mem_map_of_mem _ hmem)
  · rw [cnt_generateMarkdown s ts _ (headingLine_ne_nil name)]
    have t1 : cntLine (headingLine name) headConst1.data = 0 := by
      rw [headingLine_as_pre]
      exact cntLine_zero_of_no_pre _ _ _ (by decide)
    have t3 : cntLine (headingLine name) headConst2t.data = 0 := by
      rw [headingLine_as_pre]
      exact cntLine_zero_of_no_pre _ _ _ (by decide)
    have t5 : cntLine (headingLine name) midConstT.data = 0 := by
      rw [headingLine_as_pre]
      exact cntLine_zero_of_no_pre _ _ _ (by decide)
    have t7 : cntLine (headingLine name) tailBody0t.data = 0 := by
      rw [headingLine_as_pre]
      exact cntLine_zero_of_no_pre _ _ _ (by decide)
    have t4 : ((s.required.getD []).map
        (fun f => cntLine (headingLine name) ("- `" ++ f ++ "`\n").data)).sum = 0 := by
      rw [List.sum_eq_zero_iff]
      intro v hv
      obtain ⟨f, hf, rfl⟩ := List.mem_map.mp hv
      exact cnt_bulletEntry_zero name f (hreqN f hf)
    have t6 : (s.properties.map (fun np =>
        cntLine (headingLine name)
          (topPropertyBlock (s.required.getD []) np.1 np.2).data)).sum = 0 := by
      rw [List.map_congr_left (fun np hnp => by
        rw [cnt_topPropertyBlock name _ np.1 np.2 (hnames np hnp), htails np hnp])]
      simp only [Nat.add_zero]
      exact sum_indicator_zero name s.properties hnot
    have t8 : cntLine (headingLine name) ("**Last updated:** " ++ ts).data = 0 := by
      have hl8 : noNL ("**Last updated:** " ++ ts).data = true := by
        rw [String.data_append, noNL_append, hts]
        have h9 : noNL ("**Last updated:** " : String).data = true := by decide
        rw [h9]
        rfl
      rw [cntLine_of_noNL _ _ hl8, if_neg (lastline_ne_headingLine ts name)]
    rw [t1, t3, t5, t7, t4, t6, t8, hov]

/-- A minimal string-typed schema property used by concrete witnesses. -/
def wProp : SchemaProp :=
  .node ⟨.one "string", none, none, none, none, none, none, none, none,
    none, none⟩ none none

/-- Schema with two properties and both of them required. -/
def wSchema : Schema :=
  ⟨some "Plugin manifest schema", some ["id", "name"],
    [("id", wProp), ("name", wProp)]⟩

/-- Concrete witness for `property_headings_and_required_bullets`: in the
document generated from `wSchema`, the property `id` has exactly one
heading and the required name `name` exactly one bullet. -/
theorem property_headings_and_required_bullets_witness :
    cntLine (headingLine "id")
        (generateMarkdown wSchema "2025-01-01T00:00:00.000Z").data = 1
    ∧ splitLines (requiredSection (wSchema.required.getD [])).data
        = (wSchema.required.getD []).map (fun f => ("- `" ++ f ++ "`").data)
          ++ [[]]
    ∧ ((wSchema.required.getD []).map
          (fun f => ("- `" ++ f ++ "`").data)).count
        (("- `" ++ "name" ++ "`").data) = 1 :=
  property_headings_and_required_bullets wSchema "2025-01-01T00:00:00.000Z"
    "id" "name" (by decide) (by decide) (by decide) (by decide) (by decide)
    (by decide) (by decide) (by decide) (by decide)

/-- Schema whose required list names `ghost`, absent from `properties`. -/
def w9Schema : Schema :=
  ⟨some "Plugin manifest schema", some ["id", "ghost"], [("id", wProp)]⟩

/-- Concrete witness for `dangling_required_best_effort`: the dangling
required name `ghost` gets a bullet but no heading. -/
theorem dangling_required_best_effort_witness :
    ("- `" ++ "ghost" ++ "`").data
      ∈ splitLines (requiredSection (w9Schema.required.getD [])).data
    ∧ cntLine (headingLine "ghost")
        (generateMarkdown w9Schema "2025-01-01T00:00:00.000Z").data = 0 :=
  dangling_required_best_effort w9Schema "2025-01-01T00:00:00.000Z" "ghost"
    (by decide) (by decide) (by decide) (by decide) (by decide) (by decide)
    (by decide)
